import Mathlib

/-!
Verification of the mkfile utility's core logic: argument reconstruction,
brace expansion and batch-creation accounting (src/main.rs).

Strings are modelled as `List Char`.  The brace characters are written via
`Char.ofNat` throughout, and appear in string literals as hex escapes.

The brace-matching regex of `parse_brace_expansion` is
`([^ lbrace ]*) lbrace ([^ rbrace ]+) rbrace ([^ lbrace ]*)` with
leftmost-first semantics.  `findBraceAux` below computes the same match:
scanning left to right, the first open brace whose following text supplies at
least one non-closing character before a closing brace yields the match; an
open brace that cannot be completed is skipped, and everything up to and
including it is excluded from the captured prefix (the `Bool` component
records that such a skip happened, so that characters further left are not
prepended to the prefix).
-/

/-- The open-brace character. -/
def lbrace : Char := Char.ofNat 123

/-- The close-brace character. -/
def rbrace : Char := Char.ofNat 125

/-- Rust `char::is_whitespace` (the Unicode White_Space code points). -/
def isWsp (c : Char) : Bool :=
  [9, 10, 11, 12, 13, 32, 133, 160, 5760, 8192, 8193, 8194, 8195, 8196, 8197,
   8198, 8199, 8200, 8201, 8202, 8232, 8233, 8239, 8287, 12288].contains c.toNat

/-- Rust `str::trim`: drop whitespace from both ends. -/
def trimChars (l : List Char) : List Char :=
  ((l.dropWhile isWsp).reverse.dropWhile isWsp).reverse

/-- Rust `str::split(,)`: split at every comma, keeping empty segments. -/
def splitCommas : List Char → List (List Char)
  | [] => [[]]
  | c :: rest =>
    if c = ',' then [] :: splitCommas rest
    else
      match splitCommas rest with
      | [] => [[c]]
      | p :: ps => (c :: p) :: ps

/-- Accumulator-based splitter behind `splitWs`; `acc` is the current word,
reversed. -/
def splitWsAcc : List Char → List Char → List (List Char)
  | acc, [] => if acc = [] then [] else [acc.reverse]
  | acc, c :: rest =>
    if isWsp c then
      if acc = [] then splitWsAcc [] rest else acc.reverse :: splitWsAcc [] rest
    else splitWsAcc (c :: acc) rest

/-- Rust `str::split_whitespace`: maximal non-whitespace runs, no empties. -/
def splitWs (l : List Char) : List (List Char) := splitWsAcc [] l

/-- Attempt to complete a brace group whose open brace was just consumed:
`after` is the text following the open brace.  Succeeds when the regex piece
`([^ rbrace ]+) rbrace` matches at the start of `after`, returning the
group's items text and the text after the closing brace. -/
def tryOpen (after : List Char) : Option (List Char × List Char) :=
  let items := after.takeWhile (fun c => c ≠ rbrace)
  match after.dropWhile (fun c => c ≠ rbrace) with
  | [] => none
  | _ :: tail => if items = [] then none else some (items, tail)

/-- Leftmost-first match of the brace regex.  Returns
`(skipped, captPre, items, captSuf)`: `skipped` is true when an
uncompletable open brace was passed over (so the prefix capture must not be
extended further left), `captPre`/`items`/`captSuf` are the three captures
(the suffix capture stops at the next open brace, as `[^ lbrace ]*` does). -/
def findBraceAux : List Char → Option (Bool × List Char × List Char × List Char)
  | [] => none
  | c :: rest =>
    if c = lbrace then
      match tryOpen rest with
      | some (items, tail) =>
        some (false, [], items, tail.takeWhile (fun c2 => c2 ≠ lbrace))
      | none =>
        match findBraceAux rest with
        | none => none
        | some (_, p, i, s) => some (true, p, i, s)
    else
      match findBraceAux rest with
      | none => none
      | some (skipped, p, i, s) =>
        some (skipped, if skipped then p else c :: p, i, s)

/-- The three captures of the first regex match, if any. -/
def findBrace (s : List Char) : Option (List Char × List Char × List Char) :=
  match findBraceAux s with
  | none => none
  | some (_, p, i, suf) => some (p, i, suf)

/-- The successful-match branch of `parse_brace_expansion` (lines 103-130):
append a slash to a non-empty prefix not already ending in a path separator,
split the items text on commas, trim each segment and split it on internal
whitespace, drop empties, and glue prefix + item + suffix for each surviving
item. -/
def expandMatch (pre items suf : List Char) : List (List Char) :=
  let pfx :=
    if pre ≠ [] ∧ pre.getLast? ≠ some '/' ∧ pre.getLast? ≠ some '\\' then
      pre ++ ['/']
    else pre
  let parts := splitCommas items
  let allItems := parts.flatMap (fun p => splitWs (trimChars p))
  (allItems.filter (fun it => it ≠ [])).map (fun it => pfx ++ it ++ suf)

/-- `FileCreator::parse_brace_expansion` (src/main.rs lines 99-134): match the
brace regex; on failure return the token unchanged, otherwise expand the
match. -/
def parse_brace_expansion (text : List Char) : List (List Char) :=
  match findBrace text with
  | none => [text]
  | some (pre, items, suf) => expandMatch pre items suf

/-- The per-token expansion step of `FileCreator::create_files` (lines
250-257): a token containing both an open and a close brace is brace-expanded,
any other token passes through as a single path. -/
def expandToken (t : List Char) : List (List Char) :=
  if t.contains lbrace && t.contains rbrace then parse_brace_expansion t
  else [t]

/-- The `all_files` list that `create_files` builds before creating anything:
concatenation of every token's expansion, in order. -/
def all_files : List (List Char) → List (List Char)
  | [] => []
  | f :: rest => expandToken f ++ all_files rest

/-- `main`'s independent recomputation of the expected total (lines 380-389):
sum, over the token list, of the brace-expansion length when the token holds
both braces, else 1. -/
def total_expected (fl : List (List Char)) : Nat :=
  (fl.map (fun f =>
    if f.contains lbrace && f.contains rbrace then
      (parse_brace_expansion f).length
    else 1)).sum

/-- Outcome record for one attempted path (spec's CreationResult). -/
structure CreationResult where
  path : List Char
  succeeded : Bool
deriving DecidableEq

/-- Filesystem operations `create_file` can issue, for tracking which steps
run: recursive parent-directory creation, and creation of the file itself. -/
inductive FsOp where
  | mkdirp : List Char → FsOp
  | touch : List Char → FsOp
deriving DecidableEq

/-- `FileCreator::create_file` (lines 137-175) with the filesystem abstracted
into two oracles: `dirOk fp` is true when creating `fp`'s parent directories
succeeds (or `fp` has no parent component), `fileOk fp` is true when
`File::create(fp)` succeeds.  Returns whether the path counts as a success
together with the filesystem operations performed: a directory failure
reports failure immediately and the file itself is never touched; clipboard
and notification side effects never influence the result. -/
def create_file (dirOk fileOk : List Char → Bool) (fp : List Char) :
    Bool × List FsOp :=
  if dirOk fp then (fileOk fp, [FsOp.mkdirp fp, FsOp.touch fp])
  else (false, [FsOp.mkdirp fp])

/-- The creation loop of `FileCreator::create_files` (lines 260-266) over an
already-expanded path list: attempt every path in order, count successes,
record one `CreationResult` per path and accumulate the operation trace. -/
def runBatch (dirOk fileOk : List Char → Bool) :
    List (List Char) → Nat × (List CreationResult × List FsOp)
  | [] => (0, ([], []))
  | fp :: rest =>
    let r := create_file dirOk fileOk fp
    let acc := runBatch dirOk fileOk rest
    ((if r.1 then 1 else 0) + acc.1, (⟨fp, r.1⟩ :: acc.2.1, r.2 ++ acc.2.2))

/-- `FileCreator::create_files` (lines 245-267): expand all tokens, then
create every resulting path, returning the success count. -/
def create_files (dirOk fileOk : List Char → Bool)
    (files : List (List Char)) : Nat :=
  (runBatch dirOk fileOk (all_files files)).1

/-- Scanner state of `reconstruct_files`. -/
structure RState where
  fileList : List (List Char)
  current : List Char
  inBraces : Bool

/-- One character step of the `reconstruct_files` scan (lines 278-302). -/
def reconStep (st : RState) (ch : Char) : RState :=
  if ch = lbrace then
    { st with inBraces := true, current := st.current ++ [ch] }
  else if ch = rbrace then
    { st with inBraces := false, current := st.current ++ [ch] }
  else if ch = ' ' then
    if st.inBraces then { st with current := st.current ++ [ch] }
    else if st.current = [] then st
    else { fileList := st.fileList ++ [st.current], current := [],
           inBraces := st.inBraces }
  else { st with current := st.current ++ [ch] }

/-- `reconstruct_files` (lines 271-309): join the arguments with single
spaces, then re-split on spaces that fall outside braces, flushing a final
non-empty buffer. -/
def reconstruct_files (args : List (List Char)) : List (List Char) :=
  let joined := List.intercalate [' '] args
  let st := joined.foldl reconStep ⟨[], [], false⟩
  st.fileList ++ (if st.current = [] then [] else [st.current])

/-- The help flags of `main`. -/
def helpArg (a : List Char) : Bool :=
  a == "--help".toList || a == "-h".toList

/-- The version flags of `main`. -/
def versionArg (a : List Char) : Bool :=
  a == "--version".toList || a == "-v".toList

/-- The debug flags of `main`. -/
def debugArg (a : List Char) : Bool :=
  a == "--debug".toList || a == "-d".toList

/-- The flag disabling notifications. -/
def noGntpArg (a : List Char) : Bool := a == "--no-gntp".toList

/-- Any recognised flag; every other argument is collected as a file token. -/
def flagArg (a : List Char) : Bool :=
  helpArg a || versionArg a || debugArg a || noGntpArg a

/-- The positional (file) arguments `main` collects, in order. -/
def mainFileArgs (args : List (List Char)) : List (List Char) :=
  args.filter (fun a => !flagArg a)

/-- The success count of a `main` run (lines 329-397): 0 when a help or
version flag short-circuits the run or no file arguments remain, otherwise
the count returned by `create_files` on the reconstructed token list. -/
def mainSuccessCount (args : List (List Char))
    (dirOk fileOk : List Char → Bool) : Nat :=
  if args.any (fun a => helpArg a || versionArg a) then 0
  else if mainFileArgs args = [] then 0
  else create_files dirOk fileOk (reconstruct_files (mainFileArgs args))

/-- The total `main` reports: 0 on the early-exit paths, otherwise the
independently recomputed `total_expected`. -/
def mainTotalCount (args : List (List Char)) : Nat :=
  if args.any (fun a => helpArg a || versionArg a) then 0
  else if mainFileArgs args = [] then 0
  else total_expected (reconstruct_files (mainFileArgs args))

/-- The process exit status of `main` (lines 339-362 and 393-397): 0 on
help/version or an empty file list, otherwise 0 when the success count equals
the recomputed total and 1 otherwise. -/
def mainExitCode (args : List (List Char))
    (dirOk fileOk : List Char → Bool) : Nat :=
  if args.any (fun a => helpArg a || versionArg a) then 0
  else if mainFileArgs args = [] then 0
  else if create_files dirOk fileOk (reconstruct_files (mainFileArgs args)) =
      total_expected (reconstruct_files (mainFileArgs args)) then 0
  else 1

/-- Whether some open brace is followed, anywhere later, by a close brace:
the token contains a complete brace pair with both delimiters present. -/
def hasPair : List Char → Bool
  | [] => false
  | c :: rest =>
    (if c = lbrace then rest.contains rbrace else false) || hasPair rest

/-- Whether some open brace can be completed into a regex match: it is
followed by at least one non-close-brace character and then a close brace.
Exactly the condition under which `findBraceAux` finds a match. -/
def goodBrace : List Char → Bool
  | [] => false
  | c :: rest =>
    if c = lbrace then ((tryOpen rest).isSome || goodBrace rest)
    else goodBrace rest

/-- Concrete directory oracle: parent creation fails exactly for "bad". -/
def dirOkW : List Char → Bool := fun fp => !(fp == "bad".toList)

/-- Concrete file oracle: file creation always succeeds. -/
def fileOkW : List Char → Bool := fun _ => true

/-- Concrete token list for exercising the batch loop. -/
def filesW : List (List Char) := ["bad".toList, "ok".toList]

/- ### Helper lemmas -/

theorem totalExpected_eq_length (fl : List (List Char)) :
    total_expected fl = (all_files fl).length := by
  induction fl with
  | nil => rfl
  | cons f rest ih =>
    simp only [total_expected, List.map_cons, List.sum_cons, all_files,
      List.length_append]
    have h1 : (List.map (fun f =>
        if f.contains lbrace && f.contains rbrace then
          (parse_brace_expansion f).length else 1) rest).sum
        = (all_files rest).length := ih
    rw [h1]
    unfold expandToken
    split <;> simp

theorem runBatch_count_le (dirOk fileOk : List Char → Bool)
    (l : List (List Char)) : (runBatch dirOk fileOk l).1 ≤ l.length := by
  induction l with
  | nil => simp [runBatch]
  | cons fp rest ih =>
    simp only [runBatch, List.length_cons]
    split <;> omega

theorem runBatch_paths (dirOk fileOk : List Char → Bool)
    (l : List (List Char)) :
    ((runBatch dirOk fileOk l).2.1).map CreationResult.path = l := by
  induction l with
  | nil => rfl
  | cons fp rest ih => simp [runBatch, ih]

theorem runBatch_count_eq_filter (dirOk fileOk : List Char → Bool)
    (l : List (List Char)) :
    (runBatch dirOk fileOk l).1 =
      (((runBatch dirOk fileOk l).2.1).filter (fun r => r.succeeded)).length := by
  induction l with
  | nil => rfl
  | cons fp rest ih =>
    simp only [runBatch, List.filter_cons]
    split
    · simp_all
      omega
    · simp_all

theorem dropWhile_ne_rbrace_mem (l : List Char)
    (h : l.dropWhile (fun c => c ≠ rbrace) ≠ []) : rbrace ∈ l := by
  induction l with
  | nil => simp [List.dropWhile] at h
  | cons c rest ih =>
    by_cases hc : c = rbrace
    · simp [hc]
    · simp only [List.dropWhile, hc] at h
      simp only [decide_not] at h
      have := ih (by simpa [hc] using h)
      exact List.mem_cons_of_mem _ this

theorem tryOpen_isSome_contains (after : List Char)
    (h : (tryOpen after).isSome = true) : after.contains rbrace = true := by
  unfold tryOpen at h
  simp only at h
  rcases hd : after.dropWhile (fun c => c ≠ rbrace) with _ | ⟨x, tail⟩
  · rw [hd] at h; simp at h
  · have : rbrace ∈ after := dropWhile_ne_rbrace_mem after (by rw [hd]; simp)
    simpa [List.contains] using this

theorem goodBrace_imp_hasPair (l : List Char) (h : goodBrace l = true) :
    hasPair l = true := by
  induction l with
  | nil => simp [goodBrace] at h
  | cons c rest ih =>
    unfold goodBrace at h
    unfold hasPair
    by_cases hc : c = lbrace
    · rw [if_pos hc] at h
      rw [if_pos hc]
      rw [Bool.or_eq_true] at h ⊢
      rcases h with h | h
      · exact Or.inl (tryOpen_isSome_contains rest h)
      · exact Or.inr (ih h)
    · rw [if_neg hc] at h
      rw [if_neg hc]
      simp [ih h]

theorem findBraceAux_eq_none (l : List Char) (h : goodBrace l = false) :
    findBraceAux l = none := by
  induction l with
  | nil => rfl
  | cons c rest ih =>
    unfold goodBrace at h
    unfold findBraceAux
    by_cases hc : c = lbrace
    · rw [if_pos hc] at h
      rw [if_pos hc]
      rw [Bool.or_eq_false_iff] at h
      have hnone : tryOpen rest = none := by
        rcases htry : tryOpen rest with _ | v
        · rfl
        · rw [htry] at h; simp at h
      rw [hnone, ih h.2]
    · rw [if_neg hc] at h
      rw [if_neg hc]
      rw [ih h]

theorem parse_of_findBrace_none (t : List Char)
    (h : findBrace t = none) : parse_brace_expansion t = [t] := by
  unfold parse_brace_expansion
  rw [h]

theorem parse_of_not_good (t : List Char) (h : goodBrace t = false) :
    parse_brace_expansion t = [t] := by
  apply parse_of_findBrace_none
  unfold findBrace
  rw [findBraceAux_eq_none t h]

theorem splitCommas_no_comma (l : List Char) (h : ',' ∉ l) :
    splitCommas l = [l] := by
  induction l with
  | nil => rfl
  | cons c rest ih =>
    have hc : ¬ c = ',' := fun hx => h (hx ▸ List.mem_cons_self c rest)
    have hr : ',' ∉ rest := fun hx => h (List.mem_cons_of_mem _ hx)
    unfold splitCommas
    rw [if_neg (fun hx => hc hx)]
    rw [ih hr]

theorem dropWhile_all_wsp (l : List Char) (h : ∀ c ∈ l, isWsp c = true) :
    l.dropWhile isWsp = [] := by
  induction l with
  | nil => rfl
  | cons c rest ih =>
    rw [List.dropWhile_cons]
    rw [h c (List.mem_cons_self c rest)]
    simp only [if_true]
    exact ih (fun x hx => h x (List.mem_cons_of_mem _ hx))

theorem trimChars_all_wsp (l : List Char) (h : ∀ c ∈ l, isWsp c = true) :
    trimChars l = [] := by
  unfold trimChars
  rw [dropWhile_all_wsp l h]
  rfl

theorem expandMatch_ws_items (pre items suf : List Char)
    (hws : ∀ c ∈ items, isWsp c = true) : expandMatch pre items suf = [] := by
  have hnc : ',' ∉ items := fun hm => absurd (hws _ hm) (by decide)
  simp [expandMatch, splitCommas_no_comma items hnc,
    trimChars_all_wsp items hws, splitWs, splitWsAcc]

theorem parse_ws_items_nil (t pre items suf : List Char)
    (h : findBrace t = some (pre, items, suf))
    (hws : ∀ c ∈ items, isWsp c = true) : parse_brace_expansion t = [] := by
  unfold parse_brace_expansion
  rw [h]
  exact expandMatch_ws_items pre items suf hws

/- ### Claim theorems -/

/-- Claim C1, counterexample.  The claim states that
`expand("a\x7b1,2\x7db\x7b3,4\x7dc")` returns exactly
`["a1b\x7b3,4\x7dc", "a2b\x7b3,4\x7dc"]`.  It does not: the regex's suffix
capture stops at the next open brace and the non-empty prefix gains a slash,
so neither element has that shape. -/
theorem c1_first_group_cex :
    parse_brace_expansion ("a\x7b1,2\x7db\x7b3,4\x7dc".toList) ≠
      [("a1b\x7b3,4\x7dc".toList), ("a2b\x7b3,4\x7dc".toList)] := by decide

/-- Claim C1, amended.  For the token `a\x7b1,2\x7db\x7b3,4\x7dc`, expansion
returns exactly the two-element list `["a/1b", "a/2b"]` in that order: only
the first brace group is expanded, the captured suffix extends only up to the
next open brace (the text from the second group onward is dropped), and the
non-empty prefix `a` gains a `/` separator. -/
theorem c1_first_group_amended :
    parse_brace_expansion ("a\x7b1,2\x7db\x7b3,4\x7dc".toList) =
      [("a/1b".toList), ("a/2b".toList)] := by decide

/-- Claim C2, counterexample.  The claim states that a token whose brace
group's items text is empty yields the empty list.  The token consisting of
an open brace directly followed by a close brace has empty items text, yet
expansion returns it unchanged as a one-element list, because the regex
requires at least one character between the braces and therefore never
matches. -/
theorem c2_empty_items_cex :
    parse_brace_expansion ("\x7b\x7d".toList) = [("\x7b\x7d".toList)] ∧
    parse_brace_expansion ("\x7b\x7d".toList) ≠ [] :=
  ⟨by decide, by decide⟩

/-- Claim C2, amended.  For every token whose matched brace group's items
text consists only of whitespace, expansion returns the empty list (the token
contributes zero paths); a token with empty items text never matches the
regex and is instead returned unchanged. -/
theorem c2_ws_items_amended (t pre items suf : List Char)
    (h : findBrace t = some (pre, items, suf))
    (hws : ∀ c ∈ items, isWsp c = true) : parse_brace_expansion t = [] :=
  parse_ws_items_nil t pre items suf h hws

/-- Witness for the amended claim C2 at the token open-brace, space,
close-brace. -/
theorem c2_ws_items_amended_witness :
    findBrace ("\x7b \x7d".toList) = some ([], [' '], []) ∧
    parse_brace_expansion ("\x7b \x7d".toList) = [] :=
  ⟨by decide,
    c2_ws_items_amended ("\x7b \x7d".toList) [] [' '] [] (by decide) (by decide)⟩

/-- Claim C3: for every token list, the total that `main` recomputes for the
final report equals the length of the expanded `all_files` list that
`create_files` actually attempts — the two independently computed expansions
agree numerically. -/
theorem c3_totals_agree (fl : List (List Char)) :
    total_expected fl = (all_files fl).length :=
  totalExpected_eq_length fl

/-- Claim C4: the process exit status is 0 exactly when the success count
equals the recomputed total (including the vacuous help/version/no-file
cases, where both counts are 0), and 1 exactly otherwise. -/
theorem c4_exit_iff_success_eq_total (args : List (List Char))
    (dirOk fileOk : List Char → Bool) :
    (mainExitCode args dirOk fileOk = 0 ↔
      mainSuccessCount args dirOk fileOk = mainTotalCount args) ∧
    (mainExitCode args dirOk fileOk = 1 ↔
      mainSuccessCount args dirOk fileOk ≠ mainTotalCount args) := by
  unfold mainExitCode mainSuccessCount mainTotalCount
  split_ifs with h1 h2 h3 <;> simp_all

/-- Claim C5: `expand("dir/\x7ba,b,c\x7d.txt")` returns exactly
`["dir/a.txt", "dir/b.txt", "dir/c.txt"]` and `expand("\x7ba, b ,c\x7d")`
returns exactly `["a", "b", "c"]`, in order: commas split first, each piece
is trimmed, internal whitespace splits further, and empties are dropped. -/
theorem c5_expand_examples :
    parse_brace_expansion ("dir/\x7ba,b,c\x7d.txt".toList) =
      [("dir/a.txt".toList), ("dir/b.txt".toList), ("dir/c.txt".toList)] ∧
    parse_brace_expansion ("\x7ba, b ,c\x7d".toList) =
      [("a".toList), ("b".toList), ("c".toList)] :=
  ⟨by decide, by decide⟩

/-- Claim C6: every token containing no complete brace pair — no open brace
followed anywhere later by a close brace — expands to the single-element list
holding the token unchanged, both through `parse_brace_expansion` itself and
through the guarded per-token step of `create_files`, so such a token yields
exactly one path equal to itself. -/
theorem c6_no_brace_pair_identity (t : List Char) (h : hasPair t = false) :
    parse_brace_expansion t = [t] ∧ expandToken t = [t] := by
  have hg : goodBrace t = false := by
    cases hq : goodBrace t
    · rfl
    · rw [goodBrace_imp_hasPair t hq] at h
      simp at h
  have hp := parse_of_not_good t hg
  refine ⟨hp, ?_⟩
  unfold expandToken
  split
  · exact hp
  · rfl

/-- Witness for claim C6 at the token close-brace, open-brace, letter a. -/
theorem c6_no_brace_pair_identity_witness :
    hasPair ("\x7d\x7ba".toList) = false ∧
    parse_brace_expansion ("\x7d\x7ba".toList) = [("\x7d\x7ba".toList)] ∧
    expandToken ("\x7d\x7ba".toList) = [("\x7d\x7ba".toList)] :=
  ⟨by decide, (c6_no_brace_pair_identity ("\x7d\x7ba".toList) (by decide)).1,
    (c6_no_brace_pair_identity ("\x7d\x7ba".toList) (by decide)).2⟩

/-- Claim C7: reconstructing the argument list `["dir/\x7ba,", "b\x7d.txt"]`
yields exactly one token, `"dir/\x7ba, b\x7d.txt"`: the rejoining space falls
inside the open brace group and is preserved rather than treated as a token
separator. -/
theorem c7_reconstruct_split_group :
    reconstruct_files [("dir/\x7ba,".toList), ("b\x7d.txt".toList)] =
      [("dir/\x7ba, b\x7d.txt".toList)] := by decide

/-- Claim C8: the batch records one result per expanded path, in order,
whatever the per-path outcomes are; the success count is exactly the number
of recorded successes; and a path whose parent-directory creation fails is
reported as a failure with the file itself never created (its trace holds
only the directory operation). -/
theorem c8_batch_isolation (dirOk fileOk : List Char → Bool)
    (files : List (List Char)) :
    ((runBatch dirOk fileOk (all_files files)).2.1).map CreationResult.path =
        all_files files ∧
    (runBatch dirOk fileOk (all_files files)).1 =
      (((runBatch dirOk fileOk (all_files files)).2.1).filter
        (fun r => r.succeeded)).length ∧
    (∀ fp, dirOk fp = false →
      create_file dirOk fileOk fp = (false, [FsOp.mkdirp fp])) := by
  refine ⟨runBatch_paths dirOk fileOk (all_files files),
    runBatch_count_eq_filter dirOk fileOk (all_files files), ?_⟩
  intro fp hfp
  unfold create_file
  rw [hfp]
  simp

/-- Witness for claim C8 on a concrete two-token batch whose first path has a
failing parent-directory creation. -/
theorem c8_batch_isolation_witness :
    ((runBatch dirOkW fileOkW (all_files filesW)).2.1).map CreationResult.path =
        all_files filesW ∧
    (runBatch dirOkW fileOkW (all_files filesW)).1 =
      (((runBatch dirOkW fileOkW (all_files filesW)).2.1).filter
        (fun r => r.succeeded)).length ∧
    create_file dirOkW fileOkW ("bad".toList) =
      (false, [FsOp.mkdirp ("bad".toList)]) :=
  ⟨(c8_batch_isolation dirOkW fileOkW filesW).1,
    (c8_batch_isolation dirOkW fileOkW filesW).2.1,
    (c8_batch_isolation dirOkW fileOkW filesW).2.2 ("bad".toList) (by decide)⟩

/-- Claim C9: expansion is a total function (it is defined for every token as
a plain terminating computation), and malformed brace input — any token on
which the regex cannot match, i.e. no open brace is followed by a non-empty
run of non-close-brace characters and then a close brace — degrades to
returning the token unchanged. -/
theorem c9_expand_total_degrade (t : List Char) (h : goodBrace t = false) :
    parse_brace_expansion t = [t] :=
  parse_of_not_good t h

/-- Witness for claim C9 at the malformed token open-brace, letter x. -/
theorem c9_expand_total_degrade_witness :
    goodBrace ("\x7bx".toList) = false ∧
    parse_brace_expansion ("\x7bx".toList) = [("\x7bx".toList)] :=
  ⟨by decide, c9_expand_total_degrade ("\x7bx".toList) (by decide)⟩

/-- Claim C10: for every token list and every assignment of per-path
outcomes, the success count returned by `create_files` never exceeds the
total that `main` computes, and the exit status is always exactly 0 or 1. -/
theorem c10_success_le_total_exit01 (fl args : List (List Char))
    (dirOk fileOk : List Char → Bool) :
    create_files dirOk fileOk fl ≤ total_expected fl ∧
    (mainExitCode args dirOk fileOk = 0 ∨ mainExitCode args dirOk fileOk = 1) := by
  constructor
  · unfold create_files
    rw [totalExpected_eq_length]
    exact runBatch_count_le dirOk fileOk (all_files fl)
  · unfold mainExitCode
    split_ifs <;> simp
